import Mathlib

/-!
Verification of the configuration-resolver and scoped-outbound-call logic of
the mcp-test repository.  The TypeScript sources are shallowly embedded:

* JavaScript values produced by `JSON.parse` are modelled by `Mcp.Json`;
  numbers are modelled as exact canonical decimals `mantissa * 10 ^ exp`
  (the mantissa never ends in a zero digit and 0 is `num 0 0`), so distinct
  spellings of the same decimal compare equal as in JavaScript, while IEEE
  rounding of extreme literals is not modelled.
* `JSON.parse` is modelled by a fuel-indexed recursive-descent routine
  (`Mcp.jsonParse`); the fuel is generous enough for every input exercised
  here, and only internal consistency of the model is relied upon.
* The forgiving Node `Buffer.from(s, "base64")` is modelled by
  `Mcp.nodeBase64Decode`: characters outside the (standard or url-safe)
  alphabet, including `=`, are skipped and trailing bits that do not fill a
  byte are dropped.
* `Buffer.toString("utf-8")` is modelled by `Mcp.utf8Decode`, replacing
  ill-formed sequences with U+FFFD.
* JavaScript property access on non-objects is modelled as `undefined`
  (`Json.getField` returns `none`); prototype quirks such as
  `String.prototype.sub` are deliberately out of the model.
* Stateful code (the Netlify blob store, the module-level in-memory
  fallback) is embedded by explicit state passing, and network activity of
  the tool handlers is recorded as an ordered trace of `HttpRequest`s.
-/

namespace Mcp

/-- JavaScript values resulting from `JSON.parse`. -/
inductive Json where
  | null
  | bool (b : Bool)
  | num (mantissa : Int) (exp10 : Int)
  | str (s : String)
  | arr (elems : List Json)
  | obj (fields : List (String × Json))
  deriving Repr, Inhabited

/-- Replacement character U+FFFD. -/
def fffd : Char := Char.ofNat 0xFFFD

/-- Single-quote character, used to build fidelity-exact error strings. -/
def squote : String := String.singleton (Char.ofNat 39)

/-- Assign `k := v` on the field list of a JavaScript object: overwrite in place
if the key exists (keeping its position), append otherwise.  This is how a
JS object accumulates properties, so parsed objects never carry duplicate
keys. -/
def objInsert : List (String × Json) → String → Json → List (String × Json)
  | [], k, v => [(k, v)]
  | (k1, v1) :: t, k, v =>
    if k1 = k then (k, v) :: t else (k1, v1) :: objInsert t k v

/-- First-match lookup on a field list (field lists built by this model
never carry duplicate keys). -/
def fieldLookup : List (String × Json) → String → Option Json
  | [], _ => none
  | (k1, v1) :: t, k => if k1 = k then some v1 else fieldLookup t k

/-- JavaScript property access `j[k]`; `none` models `undefined`. -/
def Json.getField : Json → String → Option Json
  | .obj fs, k => fieldLookup fs k
  | _, _ => none

/-- JavaScript truthiness of a JSON value. -/
def jsTruthy : Json → Bool
  | .null => false
  | .bool b => b
  | .num m _ => !(m == 0)
  | .str s => !(s == "")
  | .arr _ => true
  | .obj _ => true

/-- JavaScript truthiness where `none` models `undefined`. -/
def jsTruthyOpt : Option Json → Bool
  | none => false
  | some j => jsTruthy j

/-- Whether a JSON value is a string (JS `typeof x === "string"`). -/
def Json.isStr : Json → Bool
  | .str _ => true
  | _ => false

/-- Whether a JSON value is an array (JS `Array.isArray`). -/
def Json.isArr : Json → Bool
  | .arr _ => true
  | _ => false

/-- JavaScript `String.prototype.split` with a single-character separator. -/
def splitChar (sep : Char) : List Char → List (List Char)
  | [] => [[]]
  | c :: cs =>
    let r := splitChar sep cs
    if c = sep then [] :: r
    else
      match r with
      | [] => [[c]]
      | h :: t => (c :: h) :: t

/-- Value of one base64 character; accepts the standard and url-safe
alphabets, like the Node decoder.  `none` marks a character the decoder
skips (`=` included). -/
def b64CharVal (c : Char) : Option Nat :=
  let n := c.toNat
  if 65 ≤ n && n ≤ 90 then some (n - 65)
  else if 97 ≤ n && n ≤ 122 then some (n - 71)
  else if 48 ≤ n && n ≤ 57 then some (n + 4)
  else if c = '+' || c = '-' then some 62
  else if c = '/' || c = '_' then some 63
  else none

/-- Decode 6-bit groups into bytes, dropping trailing bits that do not
fill a byte, as Node does. -/
def b64Group : List Nat → List Nat
  | a :: b :: c :: d :: rest =>
    (a * 4 + b / 16) :: ((b % 16) * 16 + c / 4) :: ((c % 4) * 64 + d) :: b64Group rest
  | [a, b] => [a * 4 + b / 16]
  | [a, b, c] => [a * 4 + b / 16, (b % 16) * 16 + c / 4]
  | _ => []

/-- The forgiving Node `Buffer.from(chars, "base64")`. -/
def nodeBase64Decode (cs : List Char) : List Nat :=
  b64Group (cs.filterMap b64CharVal)

/-- Whether a byte is a UTF-8 continuation byte. -/
def isCont (b : Nat) : Bool := 128 ≤ b && b ≤ 191

/-- Fuel-indexed UTF-8 decoding with U+FFFD replacement of ill-formed
sequences (one replacement per rejected lead byte). -/
def utf8DecodeAux : Nat → List Nat → List Char
  | 0, _ => []
  | _ + 1, [] => []
  | fuel + 1, b :: rest =>
    if b ≤ 127 then Char.ofNat b :: utf8DecodeAux fuel rest
    else if 194 ≤ b && b ≤ 223 then
      match rest with
      | b2 :: r2 =>
        if isCont b2 then Char.ofNat ((b - 192) * 64 + (b2 - 128)) :: utf8DecodeAux fuel r2
        else fffd :: utf8DecodeAux fuel rest
      | [] => [fffd]
    else if 224 ≤ b && b ≤ 239 then
      match rest with
      | b2 :: b3 :: r3 =>
        let lowOk :=
          if b = 224 then 160 ≤ b2 && b2 ≤ 191
          else if b = 237 then 128 ≤ b2 && b2 ≤ 159
          else isCont b2
        if lowOk && isCont b3 then
          Char.ofNat ((b - 224) * 4096 + (b2 - 128) * 64 + (b3 - 128)) :: utf8DecodeAux fuel r3
        else fffd :: utf8DecodeAux fuel rest
      | _ => fffd :: utf8DecodeAux fuel rest
    else if 240 ≤ b && b ≤ 244 then
      match rest with
      | b2 :: b3 :: b4 :: r4 =>
        let lowOk :=
          if b = 240 then 144 ≤ b2 && b2 ≤ 191
          else if b = 244 then 128 ≤ b2 && b2 ≤ 143
          else isCont b2
        if lowOk && isCont b3 && isCont b4 then
          Char.ofNat ((b - 240) * 262144 + (b2 - 128) * 4096 + (b3 - 128) * 64 + (b4 - 128))
            :: utf8DecodeAux fuel r4
        else fffd :: utf8DecodeAux fuel rest
      | _ => fffd :: utf8DecodeAux fuel rest
    else fffd :: utf8DecodeAux fuel rest

/-- `Buffer.toString("utf-8")` on a byte list. -/
def utf8Decode (bs : List Nat) : List Char :=
  utf8DecodeAux (bs.length + 1) bs

/-- JSON whitespace. -/
def isJsonWs (c : Char) : Bool :=
  c = ' ' || c = Char.ofNat 9 || c = Char.ofNat 10 || c = Char.ofNat 13

/-- Skip leading JSON whitespace. -/
def skipWs (cs : List Char) : List Char := cs.dropWhile isJsonWs

/-- ASCII decimal digit test. -/
def isDigitCh (c : Char) : Bool := 48 ≤ c.toNat && c.toNat ≤ 57

/-- Value of a hex digit. -/
def hexVal (c : Char) : Option Nat :=
  let n := c.toNat
  if 48 ≤ n && n ≤ 57 then some (n - 48)
  else if 65 ≤ n && n ≤ 70 then some (n - 55)
  else if 97 ≤ n && n ≤ 102 then some (n - 87)
  else none

/-- Digits-to-Nat accumulation. -/
def digitsToNat (ds : List Char) : Nat :=
  ds.foldl (fun n c => n * 10 + (c.toNat - 48)) 0

/-- Build the canonical decimal for a parsed JSON number literal. -/
def mkNum (neg : Bool) (intDs fracDs : List Char) (expNeg : Bool) (expDs : List Char) : Json :=
  let mantDs := intDs ++ fracDs
  let dropped := (mantDs.reverse.takeWhile (fun c => c = '0')).length
  let kept := (mantDs.reverse.dropWhile (fun c => c = '0')).reverse
  let m : Nat := digitsToNat kept
  if m = 0 then Json.num 0 0
  else
    let e : Int :=
      (if expNeg then -(digitsToNat expDs : Int) else (digitsToNat expDs : Int))
        - (fracDs.length : Int) + (dropped : Int)
    Json.num (if neg then -(m : Int) else (m : Int)) e

/-- Parse the exponent digits of a JSON number literal. -/
def parseExpDigits (neg : Bool) (intDs fracDs : List Char) (cs : List Char) :
    Option (Json × List Char) :=
  let p : Bool × List Char :=
    match cs with
    | '+' :: t => (false, t)
    | '-' :: t => (true, t)
    | _ => (false, cs)
  let eds := p.2.takeWhile isDigitCh
  if eds.length = 0 then none
  else some (mkNum neg intDs fracDs p.1 eds, p.2.dropWhile isDigitCh)

/-- Parse the optional exponent part of a JSON number literal. -/
def parseExpPart (neg : Bool) (intDs fracDs : List Char) (cs : List Char) :
    Option (Json × List Char) :=
  match cs with
  | 'e' :: t => parseExpDigits neg intDs fracDs t
  | 'E' :: t => parseExpDigits neg intDs fracDs t
  | _ => some (mkNum neg intDs fracDs false [], cs)

/-- Parse the optional fraction part of a JSON number literal. -/
def parseFracExp (neg : Bool) (intDs : List Char) (cs : List Char) :
    Option (Json × List Char) :=
  match cs with
  | '.' :: t =>
    let fds := t.takeWhile isDigitCh
    if fds.length = 0 then none
    else parseExpPart neg intDs fds (t.dropWhile isDigitCh)
  | _ => parseExpPart neg intDs [] cs

/-- Parse a JSON number literal (strict JSON grammar: no leading zeros,
digits required after a dot or exponent marker). -/
def parseNumberFrom (cs : List Char) : Option (Json × List Char) :=
  let p : Bool × List Char :=
    match cs with
    | '-' :: t => (true, t)
    | _ => (false, cs)
  match p.2 with
  | '0' :: t => parseFracExp p.1 ['0'] t
  | c :: t =>
    if isDigitCh c && !(c == '0') then
      parseFracExp p.1 ((c :: t).takeWhile isDigitCh) ((c :: t).dropWhile isDigitCh)
    else none
  | [] => none

mutual

/-- Fuel-indexed recursive-descent JSON value parsing, modelling
`JSON.parse`. -/
def parseValue : Nat → List Char → Option (Json × List Char)
  | 0, _ => none
  | fuel + 1, cs =>
    match skipWs cs with
    | 'n' :: 'u' :: 'l' :: 'l' :: rest => some (.null, rest)
    | 't' :: 'r' :: 'u' :: 'e' :: rest => some (.bool true, rest)
    | 'f' :: 'a' :: 'l' :: 's' :: 'e' :: rest => some (.bool false, rest)
    | '\"' :: rest =>
      match parseStringBody fuel rest [] with
      | some (s, rest1) => some (.str s, rest1)
      | none => none
    | '[' :: rest =>
      (match skipWs rest with
       | ']' :: rest1 => some (.arr [], rest1)
       | _ =>
         match parseElems fuel rest [] with
         | some (xs, rest1) => some (.arr xs, rest1)
         | none => none)
    | '\x7b' :: rest =>
      (match skipWs rest with
       | '\x7d' :: rest1 => some (.obj [], rest1)
       | _ =>
         match parseMembers fuel rest [] with
         | some (fs, rest1) => some (.obj fs, rest1)
         | none => none)
    | c :: rest => parseNumberFrom (c :: rest)
    | [] => none

/-- Parse the comma-separated elements of a non-empty JSON array. -/
def parseElems : Nat → List Char → List Json → Option (List Json × List Char)
  | 0, _, _ => none
  | fuel + 1, cs, acc =>
    match parseValue fuel cs with
    | none => none
    | some (v, rest) =>
      match skipWs rest with
      | ',' :: rest1 => parseElems fuel rest1 (acc ++ [v])
      | ']' :: rest1 => some (acc ++ [v], rest1)
      | _ => none

/-- Parse the members of a non-empty JSON object; repeated keys overwrite
in place as JS property assignment does. -/
def parseMembers : Nat → List Char → List (String × Json) →
    Option (List (String × Json) × List Char)
  | 0, _, _ => none
  | fuel + 1, cs, acc =>
    match skipWs cs with
    | '\"' :: rest =>
      (match parseStringBody fuel rest [] with
       | none => none
       | some (k, rest1) =>
         match skipWs rest1 with
         | ':' :: rest2 =>
           (match parseValue fuel rest2 with
            | none => none
            | some (v, rest3) =>
              match skipWs rest3 with
              | ',' :: rest4 => parseMembers fuel rest4 (objInsert acc k v)
              | '\x7d' :: rest4 => some (objInsert acc k v, rest4)
              | _ => none)
         | _ => none)
    | _ => none

/-- Parse the body of a JSON string literal (opening quote consumed).
Surrogate pairs in `\u` escapes are combined; lone surrogates become
U+FFFD. -/
def parseStringBody : Nat → List Char → List Char → Option (String × List Char)
  | 0, _, _ => none
  | fuel + 1, cs, acc =>
    match cs with
    | [] => none
    | '\"' :: rest => some (String.mk acc.reverse, rest)
    | '\\' :: esc =>
      (match esc with
       | '\"' :: r => parseStringBody fuel r ('\"' :: acc)
       | '\\' :: r => parseStringBody fuel r ('\\' :: acc)
       | '/' :: r => parseStringBody fuel r ('/' :: acc)
       | 'b' :: r => parseStringBody fuel r (Char.ofNat 8 :: acc)
       | 'f' :: r => parseStringBody fuel r (Char.ofNat 12 :: acc)
       | 'n' :: r => parseStringBody fuel r (Char.ofNat 10 :: acc)
       | 'r' :: r => parseStringBody fuel r (Char.ofNat 13 :: acc)
       | 't' :: r => parseStringBody fuel r (Char.ofNat 9 :: acc)
       | 'u' :: h1 :: h2 :: h3 :: h4 :: r =>
         (match hexVal h1, hexVal h2, hexVal h3, hexVal h4 with
          | some a, some b, some c, some d =>
            let n := ((a * 16 + b) * 16 + c) * 16 + d
            if 55296 ≤ n && n < 56320 then
              match r with
              | '\\' :: 'u' :: g1 :: g2 :: g3 :: g4 :: r2 =>
                (match hexVal g1, hexVal g2, hexVal g3, hexVal g4 with
                 | some a2, some b2, some c2, some d2 =>
                   let m := ((a2 * 16 + b2) * 16 + c2) * 16 + d2
                   if 56320 ≤ m && m < 57344 then
                     parseStringBody fuel r2
                       (Char.ofNat (65536 + (n - 55296) * 1024 + (m - 56320)) :: acc)
                   else parseStringBody fuel r (fffd :: acc)
                 | _, _, _, _ => parseStringBody fuel r (fffd :: acc))
              | _ => parseStringBody fuel r (fffd :: acc)
            else if 56320 ≤ n && n < 57344 then parseStringBody fuel r (fffd :: acc)
            else parseStringBody fuel r (Char.ofNat n :: acc)
          | _, _, _, _ => none)
       | _ => none)
    | c :: rest =>
      if c.toNat < 32 then none else parseStringBody fuel rest (c :: acc)

end

/-- `JSON.parse` on a character list: a single value with only trailing
whitespace allowed. -/
def jsonParse (cs : List Char) : Option Json :=
  match parseValue (8 * (cs.length + 1)) cs with
  | some (v, rest) => if skipWs rest = [] then some v else none
  | none => none

/-! ## MCP errors and the JWT / client-id helpers of create-server.ts -/

/-- The two MCP SDK error codes this code throws. -/
inductive ErrCode where
  | invalidRequest
  | internalError
  deriving Repr, DecidableEq

/-- A thrown `McpError`; the MCP transport surfaces it to the caller as a
protocol-level error response instead of crashing the process. -/
structure McpError where
  code : ErrCode
  message : String
  deriving Repr, DecidableEq

/-- Error thrown by `getSubFromJwt` for any failure inside its `try`. -/
def invalidJwtError : McpError :=
  ⟨.invalidRequest, "Invalid JWT format or missing sub claim"⟩

/-- Error thrown by `decodeClientId` for any failure inside its `try`. -/
def invalidClientIdError : McpError :=
  ⟨.invalidRequest, "Invalid client ID format"⟩

/-- Pad a base64 payload to a multiple of 4 characters, as
`payload + "=".repeat((4 - (payload.length % 4)) % 4)` does. -/
def padBase64 (payload : List Char) : List Char :=
  payload ++ List.replicate ((4 - payload.length % 4) % 4) '='

/-- `getSubFromJwt` of create-server.ts (identical in part_000): split the
token on dots, require exactly three segments, base64-decode the padded
middle segment, `JSON.parse` it, and require a truthy `sub` property;
every failure inside the `try` is rethrown as `invalidJwtError`. -/
def getSubFromJwt (jwt : String) : Except McpError Json :=
  match splitChar '.' jwt.data with
  | [_, payload, _] =>
    match jsonParse (utf8Decode (nodeBase64Decode (padBase64 payload))) with
    | none => .error invalidJwtError
    | some decoded =>
      match decoded.getField "sub" with
      | some v => if jsTruthy v then .ok v else .error invalidJwtError
      | none => .error invalidJwtError
  | _ => .error invalidJwtError

/-- Result of `decodeClientId`. -/
structure ClientIdParts where
  projectId : String
  appId : String
  deriving Repr, DecidableEq

/-- `decodeClientId` of create-server.ts: base64-decode the client id,
split on `:`, and require the first two components to be present and
non-empty (`!projectId || !appId` rejects empty strings and missing
components alike). -/
def decodeClientId (clientId : String) : Except McpError ClientIdParts :=
  let parts := splitChar ':' (utf8Decode (nodeBase64Decode clientId.data))
  match parts with
  | p :: a :: _ =>
    if p = [] || a = [] then .error invalidClientIdError
    else .ok ⟨String.mk p, String.mk a⟩
  | _ => .error invalidClientIdError

/-! ## The scoped outbound call pattern: read-repos and create-gh-repo -/

/-- Caller auth info produced by the auth-verification middleware. -/
structure AuthInfo where
  token : String
  scopes : List String
  clientId : String
  deriving Repr, DecidableEq

/-- The process environment variables the handlers read. -/
structure ProcessEnv where
  descopeProjectId : Option String
  descopeBaseUrl : Option String
  deriving Repr, DecidableEq

/-- One fetch response as the handler observes it: status, status text and
the value `response.json()` yields. -/
structure FetchResponse where
  status : Nat
  statusText : String
  jsonBody : Json
  deriving Repr

/-- The outside world of one tool invocation: what the token-exchange
endpoint and the downstream GitHub endpoint would answer. -/
structure World where
  exchangeResponse : FetchResponse
  githubResponse : FetchResponse
  deriving Repr

/-- A recorded outbound HTTP request. -/
structure HttpRequest where
  url : String
  method : String
  authorization : String
  jsonBody : Option Json
  deriving Repr

/-- A tool result `{content: [{type: "text", text}]}`. -/
structure ToolResult where
  text : String
  deriving Repr, DecidableEq

/-- `Response.ok`: status in the 2xx range. -/
def responseOk (r : FetchResponse) : Bool :=
  200 ≤ r.status && r.status < 300

/-- JavaScript string interpolation of a possibly-undefined environment
variable. -/
def jsDisplayOpt : Option String → String
  | none => "undefined"
  | some s => s

/-- JavaScript string coercion of a property-access result, as used in
`"Bearer " + tokenData.accessToken`.  Arrays and objects are approximated
shallowly; every scenario exercised here coerces a string. -/
def jsDisplay : Option Json → String
  | none => "undefined"
  | some .null => "null"
  | some (.bool true) => "true"
  | some (.bool false) => "false"
  | some (.num m e) => toString m ++ "e" ++ toString e
  | some (.str s) => s
  | some (.arr _) => ""
  | some (.obj _) => "[object Object]"

/-- The token-exchange endpoint URL both handlers POST to. -/
def exchangeUrl : String :=
  "https://asaf.descope.team/v1/mgmt/outbound/app/user/token/latest"

/-- The exchange request a handler issues for a given environment, caller
token and extracted `sub` claim: body `{appId: "github", userId}` and
authorization `Bearer <env project id>:<caller token>`. -/
def exchangeRequest (env : ProcessEnv) (token : String) (sub : Json) : HttpRequest :=
  { url := exchangeUrl
    method := "POST"
    authorization := "Bearer " ++ jsDisplayOpt env.descopeProjectId ++ ":" ++ token
    jsonBody := some (.obj [("appId", .str "github"), ("userId", sub)]) }

/-- The `Unauthorized` error of the read-repos handler. -/
def insufficientReadScopeError : McpError :=
  ⟨.invalidRequest,
   "Insufficient permissions: " ++ squote ++ "app:read" ++ squote ++ " scope required"⟩

/-- The `Unauthorized` error of the create-gh-repo handler. -/
def insufficientWriteScopeError : McpError :=
  ⟨.invalidRequest,
   "Insufficient permissions: " ++ squote ++ "app:write" ++ squote ++ " scope required"⟩

/-- The `ExchangeFailed` error, carrying the upstream status and status
text. -/
def exchangeFailedError (r : FetchResponse) : McpError :=
  ⟨.internalError,
   "Failed to fetch outbound token: " ++ toString r.status ++ " " ++ r.statusText⟩

/-- The `UnexpectedFormat` error of the read-repos handler. -/
def unexpectedFormatError : McpError :=
  ⟨.internalError, "Unexpected response format from GitHub API"⟩

/-- Render one repository record, newline-joined fixed field order. -/
def formatRepo (repo : Json) : String :=
  "Name: " ++ jsDisplay (repo.getField "name") ++ "\n" ++
  "Description: " ++
    (if jsTruthyOpt (repo.getField "description") then jsDisplay (repo.getField "description")
     else "No description") ++ "\n" ++
  "URL: " ++ jsDisplay (repo.getField "html_url") ++ "\n" ++
  "Stars: " ++ jsDisplay (repo.getField "stargazers_count") ++ "\n" ++
  "Forks: " ++ jsDisplay (repo.getField "forks_count")

/-- Join the rendered repositories with blank lines. -/
def formatRepos (repos : List Json) : String :=
  String.intercalate "\n\n" (repos.map formatRepo)

/-- The "no results" message of the read-repos handler. -/
def noReposMsg (username : String) : String :=
  "No repositories found for user " ++ username ++ "."

/-- The read-repos tool handler of create-server.ts: scope check, client-id
decode, claim extraction, token exchange, downstream GitHub call (whose
status is never checked in this draft), array-shape check and text
formatting.  Returns the protocol-level outcome together with the ordered
trace of outbound HTTP requests. -/
def readRepos (env : ProcessEnv) (w : World) (username : String)
    (authInfo : Option AuthInfo) : Except McpError ToolResult × List HttpRequest :=
  match authInfo with
  | none => (.error insufficientReadScopeError, [])
  | some a =>
    if a.scopes.contains "app:read" = false then (.error insufficientReadScopeError, [])
    else
      match decodeClientId a.clientId with
      | .error e => (.error e, [])
      | .ok _ =>
        match getSubFromJwt a.token with
        | .error e => (.error e, [])
        | .ok sub =>
          let exReq := exchangeRequest env a.token sub
          let resp := w.exchangeResponse
          if responseOk resp = false then
            (.error (exchangeFailedError resp), [exReq])
          else
            let tokenData := resp.jsonBody
            let ghReq : HttpRequest :=
              { url := "https://api.github.com/users/" ++ username ++ "/repos"
                method := "GET"
                authorization := "Bearer " ++ jsDisplay (tokenData.getField "accessToken")
                jsonBody := none }
            let ghResp := w.githubResponse
            match ghResp.jsonBody with
            | .arr repos =>
              if repos.length = 0 then (.ok ⟨noReposMsg username⟩, [exReq, ghReq])
              else
                let txt := formatRepos repos
                (.ok ⟨if txt = "" then noReposMsg username else txt⟩, [exReq, ghReq])
            | _ => (.error unexpectedFormatError, [exReq, ghReq])

/-- The `DownstreamFailed` error of the create-gh-repo handler. -/
def createRepoFailedError (r : FetchResponse) : McpError :=
  ⟨.internalError,
   "Failed to create repository: " ++ toString r.status ++ " " ++ r.statusText⟩

/-- The create-gh-repo tool handler of part_000: scope check ("app:write"),
claim extraction, token exchange, downstream GitHub POST with a status
check, and a success message. -/
def createGhRepo (env : ProcessEnv) (w : World) (name : String)
    (description : Option String) (authInfo : Option AuthInfo) :
    Except McpError ToolResult × List HttpRequest :=
  match authInfo with
  | none => (.error insufficientWriteScopeError, [])
  | some a =>
    if a.scopes.contains "app:write" = false then (.error insufficientWriteScopeError, [])
    else
      match getSubFromJwt a.token with
      | .error e => (.error e, [])
      | .ok sub =>
        let exReq := exchangeRequest env a.token sub
        let resp := w.exchangeResponse
        if responseOk resp = false then
          (.error (exchangeFailedError resp), [exReq])
        else
          let tokenData := resp.jsonBody
          let ghReq : HttpRequest :=
            { url := "https://api.github.com/user/repos"
              method := "POST"
              authorization :=
                "Bearer " ++ jsDisplay ((tokenData.getField "token").bind
                  (fun t => t.getField "accessToken"))
              jsonBody := some (.obj
                ([("name", .str name)] ++
                 (match description with
                  | some d => [("description", .str d)]
                  | none => []) ++
                 [("private", .bool false)])) }
          let ghResp := w.githubResponse
          if responseOk ghResp = false then
            (.error (createRepoFailedError ghResp), [exReq, ghReq])
          else
            (.ok ⟨"Repository " ++ squote ++ jsDisplay (ghResp.jsonBody.getField "name") ++
                  squote ++ " created successfully!"⟩, [exReq, ghReq])

/-! ## Configuration resolver: config-store.ts and config.ts

The single documented failure mode of the blob store in this repository is
`MissingBlobsEnvironmentError`, which breaks `get` and `set` alike; the
model therefore carries one `storeBroken` flag for this variant.  The
stored blob is written only as `JSON.stringify` of a JS object, so the
store content is modelled directly as an optional parsed JSON value. -/

/-- State of the `descope-config` blob store as config-store.ts uses it. -/
structure BlobStoreState where
  storeBroken : Bool
  content : Option Json
  deriving Repr

/-- `DEFAULT_CONFIG` with its `projectId: undefined` key modelled as
absent (JSON round-trips drop `undefined` values). -/
def defaultConfigJson : Json :=
  .obj [("baseUrl", .str "https://api.descope.com")]

/-- Field list of a JS value used as a spread source; non-objects spread
no string-keyed fields (the string-index corner of JS spread is out of the
model and unreachable through the writes this code performs). -/
def objFieldsOf : Json → List (String × Json)
  | .obj fs => fs
  | _ => []

/-- JS object spread `{...a, ...b}`: every field of `b` assigned onto a
copy of `a` in order. -/
def spreadFields (as bs : List (String × Json)) : List (String × Json) :=
  bs.foldl (fun acc p => objInsert acc p.1 p.2) as

/-- JS `{...a, ...b}` producing an object value. -/
def spreadJson (a b : Json) : Json :=
  .obj (spreadFields (objFieldsOf a) (objFieldsOf b))

/-- `getDescopeConfig` of config-store.ts: on a store error return
`DEFAULT_CONFIG` (the `catch` branch); on a falsy stored value return
`DEFAULT_CONFIG`; otherwise `{...DEFAULT_CONFIG, ...config}`.  Total:
every store outcome yields a config. -/
def getDescopeConfig (s : BlobStoreState) : Json :=
  if s.storeBroken then defaultConfigJson
  else
    match s.content with
    | none => defaultConfigJson
    | some c => if jsTruthy c = false then defaultConfigJson else spreadJson defaultConfigJson c

/-- `setDescopeConfig` of config-store.ts: merge the partial over
`getDescopeConfig()` and persist; a store failure is logged and
rethrown. -/
def setDescopeConfig (s : BlobStoreState) (config : Json) :
    Except Unit BlobStoreState :=
  if s.storeBroken then .error ()
  else .ok { s with content := some (spreadJson (getDescopeConfig s) config) }

/-- An HTTP response of the config function. -/
structure HttpResponse where
  statusCode : Nat
  jsonBody : Json
  deriving Repr

/-- The `_warning` string attached to a successful PUT. -/
def putWarning : String :=
  "Configuration saved but Netlify Blobs may not be available. Settings may not persist between deployments."

/-- `handlePut` of config.ts: parse the body, reject non-string truthy
`baseUrl`/`projectId` with 400 before touching the store, then persist and
echo the newly resolved config; a store failure is answered 202 (the
`MissingBlobsEnvironmentError` probe) without changing the store. -/
def handlePut (s : BlobStoreState) (body : String) : HttpResponse × BlobStoreState :=
  match jsonParse body.data with
  | none => (⟨500, .obj [("error", .str "Failed to update configuration")]⟩, s)
  | some config =>
    if jsTruthyOpt (config.getField "baseUrl") &&
        !((config.getField "baseUrl").any Json.isStr) then
      (⟨400, .obj [("error", .str "baseUrl must be a string")]⟩, s)
    else if jsTruthyOpt (config.getField "projectId") &&
        !((config.getField "projectId").any Json.isStr) then
      (⟨400, .obj [("error", .str "projectId must be a string")]⟩, s)
    else
      match setDescopeConfig s config with
      | .ok s1 =>
        (⟨200, spreadJson (getDescopeConfig s1) (.obj [("_warning", .str putWarning)])⟩, s1)
      | .error _ =>
        (⟨202, .obj
            [("error", .str "Netlify Blobs not configured. Configuration cannot be persisted."),
             ("fallback", .str "Using environment variables as fallback."),
             ("config", getDescopeConfig s)]⟩, s)

/-! ## Configuration resolver drafts with layered fallback: part_004 and part_005 -/

/-- JS `x || y` for an optional environment variable with a default:
the first truthy string wins. -/
def jsOrEnv (e : Option String) (dflt : String) : String :=
  match e with
  | some x => if x = "" then dflt else x
  | none => dflt

/-- A resolved configuration value pair as part_004/part_005 return it
(the fields come from parsed JSON, hence arbitrary JS values). -/
structure JsonConfig where
  projectId : Json
  baseUrl : Json
  deriving Repr

/-- Per-field layered fallback `blobField || env || default` of
part_004/part_005. -/
def fallbackJson (v : Option Json) (e : Option String) (dflt : String) : Json :=
  match v with
  | some j => if jsTruthy j then j else .str (jsOrEnv e dflt)
  | none => .str (jsOrEnv e dflt)

/-- The environment-only resolution (final fallback stage). -/
def envOnlyConfig (env : ProcessEnv) : JsonConfig :=
  { projectId := .str (jsOrEnv env.descopeProjectId "")
    baseUrl := .str (jsOrEnv env.descopeBaseUrl "https://api.descope.com") }

/-- A config as passed to the part_004 `saveConfig` (string fields per the
`DescopeConfig` interface). -/
structure ConfigPair where
  projectId : String
  baseUrl : String
  deriving Repr, DecidableEq

/-- Per-field fallback for the in-memory stage (string fields). -/
def fallbackStr (v : String) (e : Option String) (dflt : String) : Json :=
  if v = "" then .str (jsOrEnv e dflt) else .str v

/-- Module state of part_004: the blobs-availability flag, the durable
text blob (with independent get/set failure switches: a corrupt stored
blob fails reads while writes still work), and the module-level in-memory
fallback. -/
structure Part004State where
  blobsAvailable : Bool
  getThrows : Bool
  setThrows : Bool
  blobContent : Option String
  inMemoryConfig : Option ConfigPair
  deriving Repr

/-- Escape one character as inside a JSON string literal produced by
`JSON.stringify`. -/
def escapeJsonChar (c : Char) : List Char :=
  if c = '\"' then ['\\', '\"']
  else if c = '\\' then ['\\', '\\']
  else if c.toNat = 8 then ['\\', 'b']
  else if c.toNat = 9 then ['\\', 't']
  else if c.toNat = 10 then ['\\', 'n']
  else if c.toNat = 12 then ['\\', 'f']
  else if c.toNat = 13 then ['\\', 'r']
  else if c.toNat < 32 then
    ['\\', 'u', '0', '0',
     (Nat.digitChar (c.toNat / 16)), (Nat.digitChar (c.toNat % 16))]
  else [c]

/-- `JSON.stringify` of a string. -/
def stringifyStr (s : String) : String :=
  "\"" ++ String.mk (s.data.flatMap escapeJsonChar) ++ "\""

/-- `JSON.stringify({projectId, baseUrl})` for the pair part_004 persists. -/
def stringifyConfigPair (c : ConfigPair) : String :=
  "\x7b\"projectId\":" ++ stringifyStr c.projectId ++
  ",\"baseUrl\":" ++ stringifyStr c.baseUrl ++ "\x7d"

/-- The in-memory and environment stages of the part_004 `loadConfig`. -/
def part004MemoryStage (s : Part004State) (env : ProcessEnv) : JsonConfig × Part004State :=
  match s.inMemoryConfig with
  | some c =>
    ({ projectId := fallbackStr c.projectId env.descopeProjectId ""
       baseUrl := fallbackStr c.baseUrl env.descopeBaseUrl "https://api.descope.com" }, s)
  | none => (envOnlyConfig env, s)

/-- `loadConfig` of part_004: blob stage (disabling blobs for the process
on a read/parse failure), then the in-memory stage, then environment
variables and defaults; each field falls back independently.  Returns the
resolved pair together with the (possibly mutated) module state. -/
def part004LoadConfig (s : Part004State) (env : ProcessEnv) : JsonConfig × Part004State :=
  if s.blobsAvailable then
    if s.getThrows then
      part004MemoryStage { s with blobsAvailable := false } env
    else
      match s.blobContent with
      | none => part004MemoryStage s env
      | some text =>
        match jsonParse text.data with
        | none => part004MemoryStage { s with blobsAvailable := false } env
        | some j =>
          ({ projectId := fallbackJson (j.getField "projectId") env.descopeProjectId ""
             baseUrl := fallbackJson (j.getField "baseUrl") env.descopeBaseUrl
               "https://api.descope.com" }, s)
  else part004MemoryStage s env

/-- Outcome reported by the part_004 `saveConfig`. -/
structure SaveOutcome where
  storage : String
  success : Bool
  deriving Repr, DecidableEq

/-- `saveConfig` of part_004: try the durable store first (also caching in
memory on success); on a write failure disable blobs for the process and
degrade to the in-memory fallback, reporting `storage: "in-memory"`
instead of failing.  Total: it never throws. -/
def part004SaveConfig (s : Part004State) (c : ConfigPair) : SaveOutcome × Part004State :=
  if s.blobsAvailable then
    if s.setThrows then
      (⟨"in-memory", true⟩,
       { s with blobsAvailable := false, inMemoryConfig := some c })
    else
      (⟨"netlify-blobs", true⟩,
       { s with blobContent := some (stringifyConfigPair c), inMemoryConfig := some c })
  else
    (⟨"in-memory", true⟩, { s with inMemoryConfig := some c })

/-- Module state of part_005 (no in-memory fallback, module-level store). -/
structure Part005State where
  getThrows : Bool
  blobContent : Option String
  deriving Repr

/-- `loadConfig` of part_005: blob text, else environment/defaults; the
`catch` turns every read or parse failure into the environment fallback,
so the function is total. -/
def part005LoadConfig (s : Part005State) (env : ProcessEnv) : JsonConfig :=
  if s.getThrows then envOnlyConfig env
  else
    match s.blobContent with
    | none => envOnlyConfig env
    | some text =>
      match jsonParse text.data with
      | none => envOnlyConfig env
      | some j =>
        { projectId := fallbackJson (j.getField "projectId") env.descopeProjectId ""
          baseUrl := fallbackJson (j.getField "baseUrl") env.descopeBaseUrl
            "https://api.descope.com" }

/-! ## Field-list lemmas for the JS object-spread semantics -/

/-- Last-match lookup on a field list, describing what a left fold of
assignments makes visible. -/
def lastLookup : List (String × Json) → String → Option Json
  | [], _ => none
  | (k1, v1) :: t, k =>
    match lastLookup t k with
    | some v => some v
    | none => if k1 = k then some v1 else none

/-- The keys of a field list are pairwise distinct. -/
def keysNodup (fs : List (String × Json)) : Prop :=
  (fs.map Prod.fst).Nodup

theorem fieldLookup_objInsert_self (fs : List (String × Json)) (k : String) (v : Json) :
    fieldLookup (objInsert fs k v) k = some v := by
  induction fs with
  | nil => simp [objInsert, fieldLookup]
  | cons p t ih =>
    obtain ⟨k1, v1⟩ := p
    by_cases h : k1 = k
    · simp [objInsert, h, fieldLookup]
    · simp [objInsert, h, fieldLookup, ih]

theorem fieldLookup_objInsert_ne (fs : List (String × Json)) (k k' : String) (v : Json)
    (h : k' ≠ k) : fieldLookup (objInsert fs k v) k' = fieldLookup fs k' := by
  induction fs with
  | nil => simp [objInsert, fieldLookup, Ne.symm h]
  | cons p t ih =>
    obtain ⟨k1, v1⟩ := p
    by_cases h1 : k1 = k
    · subst h1
      simp [objInsert, fieldLookup, Ne.symm h]
    · simp [objInsert, h1, fieldLookup, ih]

theorem lastLookup_objInsert_chain (bs : List (String × Json)) :
    ∀ (as : List (String × Json)) (k : String),
      fieldLookup (spreadFields as bs) k =
        match lastLookup bs k with
        | some v => some v
        | none => fieldLookup as k := by
  induction bs with
  | nil => intro as k; simp [spreadFields, lastLookup]
  | cons p t ih =>
    intro as k
    obtain ⟨k1, v1⟩ := p
    have step : spreadFields as ((k1, v1) :: t) = spreadFields (objInsert as k1 v1) t := rfl
    rw [step, ih (objInsert as k1 v1) k]
    cases hlt : lastLookup t k with
    | some v => simp [lastLookup, hlt]
    | none =>
      by_cases hk : k1 = k
      · subst hk
        simp [lastLookup, hlt, fieldLookup_objInsert_self]
      · simp [lastLookup, hlt, hk, fieldLookup_objInsert_ne as k1 k v1 (Ne.symm hk)]

theorem lastLookup_of_not_mem (fs : List (String × Json)) (k : String)
    (h : k ∉ fs.map Prod.fst) : lastLookup fs k = none := by
  induction fs with
  | nil => rfl
  | cons p t ih =>
    obtain ⟨k1, v1⟩ := p
    simp only [List.map_cons, List.mem_cons] at h
    push_neg at h
    simp [lastLookup, ih h.2, Ne.symm h.1]

theorem lastLookup_eq_fieldLookup (fs : List (String × Json)) (k : String)
    (h : keysNodup fs) : lastLookup fs k = fieldLookup fs k := by
  induction fs with
  | nil => rfl
  | cons p t ih =>
    obtain ⟨k1, v1⟩ := p
    rw [keysNodup, List.map_cons, List.nodup_cons] at h
    by_cases hk : k1 = k
    · subst hk
      have : k1 ∉ t.map Prod.fst := h.1
      simp [lastLookup, fieldLookup, lastLookup_of_not_mem t k1 this]
    · simp only [lastLookup, fieldLookup, hk, if_neg hk, ih h.2]
      cases fieldLookup t k <;> rfl

theorem keys_objInsert (fs : List (String × Json)) (k : String) (v : Json) :
    (objInsert fs k v).map Prod.fst =
      if k ∈ fs.map Prod.fst then fs.map Prod.fst else fs.map Prod.fst ++ [k] := by
  induction fs with
  | nil => simp [objInsert]
  | cons p t ih =>
    obtain ⟨k1, v1⟩ := p
    by_cases hk : k1 = k
    · subst hk
      simp [objInsert]
    · have hk2 : ¬k = k1 := fun hh => hk hh.symm
      simp only [objInsert, if_neg hk, List.map_cons, ih, List.mem_cons]
      by_cases hm : k ∈ t.map Prod.fst
      · simp [hm, hk2]
      · simp [hm, hk2]

theorem keysNodup_objInsert (fs : List (String × Json)) (k : String) (v : Json)
    (h : keysNodup fs) : keysNodup (objInsert fs k v) := by
  unfold keysNodup at h ⊢
  rw [keys_objInsert]
  by_cases hm : k ∈ fs.map Prod.fst
  · simpa [hm] using h
  · rw [if_neg hm]
    refine List.Nodup.append h (List.nodup_singleton k) ?_
    intro x hx hxk
    simp only [List.mem_singleton] at hxk
    subst hxk
    exact hm hx

theorem keysNodup_spreadFields (bs : List (String × Json)) :
    ∀ as : List (String × Json), keysNodup as → keysNodup (spreadFields as bs) := by
  induction bs with
  | nil => intro as h; simpa [spreadFields] using h
  | cons p t ih =>
    intro as h
    obtain ⟨k1, v1⟩ := p
    have step : spreadFields as ((k1, v1) :: t) = spreadFields (objInsert as k1 v1) t := rfl
    rw [step]
    exact ih _ (keysNodup_objInsert as k1 v1 h)

/-- Every resolved config of config-store.ts is an object with pairwise
distinct keys. -/
theorem defaultConfig_keysNodup : keysNodup (objFieldsOf defaultConfigJson) := by
  simp [keysNodup, defaultConfigJson, objFieldsOf]

theorem getDescopeConfig_shape (s : BlobStoreState) :
    ∃ fs, getDescopeConfig s = .obj fs ∧ keysNodup fs := by
  unfold getDescopeConfig
  by_cases hb : s.storeBroken
  · refine ⟨objFieldsOf defaultConfigJson, ?_, defaultConfig_keysNodup⟩
    simp [hb, defaultConfigJson, objFieldsOf]
  · cases hc : s.content with
    | none =>
      refine ⟨objFieldsOf defaultConfigJson, ?_, defaultConfig_keysNodup⟩
      simp [hb, defaultConfigJson, objFieldsOf]
    | some c =>
      by_cases ht : jsTruthy c = false
      · refine ⟨objFieldsOf defaultConfigJson, ?_, defaultConfig_keysNodup⟩
        simp [hb, ht, defaultConfigJson, objFieldsOf]
      · refine ⟨spreadFields (objFieldsOf defaultConfigJson) (objFieldsOf c), ?_, ?_⟩
        · simp [hb, ht, spreadJson]
        · exact keysNodup_spreadFields _ _ defaultConfig_keysNodup

/-! ## Shared concrete fixtures for witnesses and counterexamples -/

/-- A world whose exchange succeeds with an access token and whose GitHub
endpoint answers 200 with an empty repository array. -/
def wHappy : World :=
  ⟨⟨200, "OK", .obj [("accessToken", .str "tok-abc")]⟩, ⟨200, "OK", .arr []⟩⟩

/-- Auth info with the read scope, a valid three-segment token whose
payload is base64 of the JSON text with sub "user-123", and a client id
that is base64 of the text proj1:app1. -/
def aiValid : AuthInfo :=
  ⟨"h.eyJzdWIiOiJ1c2VyLTEyMyJ9.s", ["app:read"], "cHJvajE6YXBwMQ=="⟩

/-- An empty process environment (both variables undefined). -/
def envNone : ProcessEnv := ⟨none, none⟩

/-! ## Claim theorems -/

/-- C3: for every working-store state and every partial update carrying
only `baseUrl = X`, the update succeeds, a subsequent resolve returns
`baseUrl = X`, and `projectId` is unchanged from before the update: the
update merges the partial over the stored config field by field instead
of replacing it. -/
theorem c3_update_merges_not_replaces (s : BlobStoreState) (X : String)
    (h : s.storeBroken = false) :
    ∃ s1, setDescopeConfig s (.obj [("baseUrl", .str X)]) = .ok s1 ∧
      (getDescopeConfig s1).getField "baseUrl" = some (.str X) ∧
      (getDescopeConfig s1).getField "projectId" = (getDescopeConfig s).getField "projectId" := by
  obtain ⟨curF, hcur, hnd⟩ := getDescopeConfig_shape s
  have hset : setDescopeConfig s (.obj [("baseUrl", .str X)]) =
      .ok ⟨s.storeBroken, some (spreadJson (getDescopeConfig s) (.obj [("baseUrl", .str X)]))⟩ := by
    simp [setDescopeConfig, h]
  have hnew : spreadJson (getDescopeConfig s) (.obj [("baseUrl", .str X)]) =
      .obj (objInsert curF "baseUrl" (.str X)) := by
    rw [hcur]; rfl
  have hndn : keysNodup (objInsert curF "baseUrl" (.str X)) :=
    keysNodup_objInsert _ _ _ hnd
  have hres : getDescopeConfig
      ⟨s.storeBroken, some (spreadJson (getDescopeConfig s) (.obj [("baseUrl", .str X)]))⟩ =
      .obj (spreadFields (objFieldsOf defaultConfigJson)
        (objInsert curF "baseUrl" (.str X))) := by
    rw [hnew]
    unfold getDescopeConfig
    simp [h, jsTruthy, spreadJson, objFieldsOf]
  refine ⟨_, hset, ?_, ?_⟩
  · rw [hres]
    show fieldLookup (spreadFields (objFieldsOf defaultConfigJson)
      (objInsert curF "baseUrl" (.str X))) "baseUrl" = some (.str X)
    rw [lastLookup_objInsert_chain, lastLookup_eq_fieldLookup _ _ hndn,
      fieldLookup_objInsert_self]
  · rw [hres, hcur]
    show fieldLookup (spreadFields (objFieldsOf defaultConfigJson)
      (objInsert curF "baseUrl" (.str X))) "projectId" = fieldLookup curF "projectId"
    rw [lastLookup_objInsert_chain, lastLookup_eq_fieldLookup _ _ hndn,
      fieldLookup_objInsert_ne _ _ _ _ (by decide)]
    cases hv : fieldLookup curF "projectId" with
    | some v => rfl
    | none =>
      show fieldLookup (objFieldsOf defaultConfigJson) "projectId" = none
      rw [show objFieldsOf defaultConfigJson =
        [("baseUrl", Json.str "https://api.descope.com")] from rfl]
      unfold fieldLookup
      rw [if_neg (by decide)]
      rfl

/-- Witness for C3 at a concrete store whose persisted config holds only a
`projectId`. -/
theorem c3_witness :
    ∃ s1, setDescopeConfig ⟨false, some (.obj [("projectId", .str "p")])⟩
        (.obj [("baseUrl", .str "X")]) = .ok s1 ∧
      (getDescopeConfig s1).getField "baseUrl" = some (.str "X") ∧
      (getDescopeConfig s1).getField "projectId" =
        (getDescopeConfig ⟨false, some (.obj [("projectId", .str "p")])⟩).getField "projectId" :=
  c3_update_merges_not_replaces ⟨false, some (.obj [("projectId", .str "p")])⟩ "X" rfl

/-- C1: a caller whose scope set lacks the required scope (`app:read` for
read-repos, `app:write` for create-gh-repo, including an absent auth
object) is answered with the Unauthorized `McpError` — a protocol-level
error value, not a crash — and the outbound request trace is empty: the
scope check precedes the token exchange and the downstream fetch. -/
theorem c1_unauthorized_makes_no_network_calls :
    (∀ (env : ProcessEnv) (w : World) (username : String) (a : Option AuthInfo),
      (∀ ai, a = some ai → ai.scopes.contains "app:read" = false) →
      readRepos env w username a = (.error insufficientReadScopeError, [])) ∧
    (∀ (env : ProcessEnv) (w : World) (name : String) (d : Option String)
        (a : Option AuthInfo),
      (∀ ai, a = some ai → ai.scopes.contains "app:write" = false) →
      createGhRepo env w name d a = (.error insufficientWriteScopeError, [])) := by
  constructor
  · intro env w username a h
    cases a with
    | none => rfl
    | some ai =>
      have hs : "app:read" ∉ ai.scopes := by simpa using h ai rfl
      simp [readRepos, hs]
  · intro env w name d a h
    cases a with
    | none => rfl
    | some ai =>
      have hs : "app:write" ∉ ai.scopes := by simpa using h ai rfl
      simp [createGhRepo, hs]

/-- Witness for C1: a caller holding only the unrelated scope app:custom. -/
theorem c1_witness :
    readRepos envNone wHappy "bob" (some ⟨"t", ["app:custom"], "c"⟩) =
      (.error insufficientReadScopeError, []) ∧
    createGhRepo envNone wHappy "repo" none (some ⟨"t", ["app:custom"], "c"⟩) =
      (.error insufficientWriteScopeError, []) :=
  ⟨c1_unauthorized_makes_no_network_calls.1 envNone wHappy "bob" _
      (fun ai h => by cases h; rfl),
   c1_unauthorized_makes_no_network_calls.2 envNone wHappy "repo" none _
      (fun ai h => by cases h; rfl)⟩

/-- C5: resolution never fails; on every persistence-layer failure it
degrades instead of throwing: a broken store makes the config-store.ts
`getDescopeConfig` return `DEFAULT_CONFIG`, and makes the part_005
`loadConfig` return the environment/default resolution — likewise when
the stored blob is absent or unparsable. -/
theorem c5_resolve_never_fails :
    (∀ s : BlobStoreState, s.storeBroken = true → getDescopeConfig s = defaultConfigJson) ∧
    (∀ (s : Part005State) (env : ProcessEnv), s.getThrows = true →
      part005LoadConfig s env = envOnlyConfig env) ∧
    (∀ (s : Part005State) (env : ProcessEnv), s.blobContent = none →
      part005LoadConfig s env = envOnlyConfig env) ∧
    (∀ (s : Part005State) (env : ProcessEnv) (text : String),
      s.blobContent = some text → jsonParse text.data = none →
      part005LoadConfig s env = envOnlyConfig env) := by
  refine ⟨?_, ?_, ?_, ?_⟩
  · intro s h
    unfold getDescopeConfig
    simp [h]
  · intro s env h
    unfold part005LoadConfig
    simp [h]
  · intro s env h
    unfold part005LoadConfig
    rw [h]
    cases hg : s.getThrows <;> simp
  · intro s env text h hp
    unfold part005LoadConfig
    rw [h]
    cases hg : s.getThrows <;> simp [hg, hp]

/-- Witness for C5: a broken store, an absent blob and a corrupt blob. -/
theorem c5_witness :
    getDescopeConfig ⟨true, none⟩ = defaultConfigJson ∧
    part005LoadConfig ⟨true, none⟩ envNone = envOnlyConfig envNone ∧
    part005LoadConfig ⟨false, none⟩ envNone = envOnlyConfig envNone ∧
    part005LoadConfig ⟨false, some "not json"⟩ envNone = envOnlyConfig envNone :=
  ⟨c5_resolve_never_fails.1 ⟨true, none⟩ rfl,
   c5_resolve_never_fails.2.1 ⟨true, none⟩ envNone rfl,
   c5_resolve_never_fails.2.2.1 ⟨false, none⟩ envNone rfl,
   c5_resolve_never_fails.2.2.2 ⟨false, some "not json"⟩ envNone "not json" rfl rfl⟩

/-- C4: when the write path of the durable store throws during an update, the part_004
`saveConfig` still succeeds, reports the degraded `in-memory` storage
marker instead of failing, leaves the durable blob untouched, and the
update stays observable by every later `loadConfig` of the same process
(served from the in-memory fallback); a fresh process with no in-memory
state and no durable blob resolves from variables/defaults. -/
theorem c4_update_survives_persistence_failure (s : Part004State) (c : ConfigPair)
    (env : ProcessEnv)
    (hAvail : s.blobsAvailable = true) (hSet : s.setThrows = true)
    (hp : c.projectId ≠ "") (hb : c.baseUrl ≠ "") :
    (part004SaveConfig s c).1 = ⟨"in-memory", true⟩ ∧
    (part004SaveConfig s c).2.blobContent = s.blobContent ∧
    (part004LoadConfig (part004SaveConfig s c).2 env).1 =
      ⟨.str c.projectId, .str c.baseUrl⟩ ∧
    (s.blobContent = none → ∀ env2 : ProcessEnv,
      (part004LoadConfig ⟨true, false, false, (part004SaveConfig s c).2.blobContent, none⟩
        env2).1 = envOnlyConfig env2) := by
  have hsave : part004SaveConfig s c =
      (⟨"in-memory", true⟩, { s with blobsAvailable := false, inMemoryConfig := some c }) := by
    simp [part004SaveConfig, hAvail, hSet]
  refine ⟨by rw [hsave], by rw [hsave], ?_, ?_⟩
  · rw [hsave]
    simp [part004LoadConfig, part004MemoryStage, fallbackStr, hp, hb]
  · intro hnone env2
    rw [hsave]
    simp [hnone, part004LoadConfig, part004MemoryStage]

/-- Witness for C4 at a state with a working read path, a throwing write
path and an empty durable blob. -/
theorem c4_witness :
    (part004SaveConfig ⟨true, false, true, none, none⟩ ⟨"p1", "b1"⟩).1 = ⟨"in-memory", true⟩ ∧
    (part004SaveConfig ⟨true, false, true, none, none⟩ ⟨"p1", "b1"⟩).2.blobContent =
      Part004State.blobContent ⟨true, false, true, none, none⟩ ∧
    (part004LoadConfig (part004SaveConfig ⟨true, false, true, none, none⟩ ⟨"p1", "b1"⟩).2
      envNone).1 = ⟨.str "p1", .str "b1"⟩ ∧
    (Part004State.blobContent ⟨true, false, true, none, none⟩ = none → ∀ env2 : ProcessEnv,
      (part004LoadConfig ⟨true, false, false,
        (part004SaveConfig ⟨true, false, true, none, none⟩ ⟨"p1", "b1"⟩).2.blobContent, none⟩
        env2).1 = envOnlyConfig env2) :=
  c4_update_survives_persistence_failure ⟨true, false, true, none, none⟩ ⟨"p1", "b1"⟩
    envNone rfl rfl (by decide) (by decide)

/-- C6 (amended): the part_004 `loadConfig` is idempotent in its result and
preserves the durable blob, the in-memory fallback and the failure
switches — two consecutive resolves agree and the second changes nothing —
but it is not fully side-effect-free: on a blob read/parse failure it
clears the process-wide blobs-available flag (see the counterexample). -/
theorem c6_amended_resolve_idempotent (s : Part004State) (env : ProcessEnv) :
    (part004LoadConfig (part004LoadConfig s env).2 env).1 = (part004LoadConfig s env).1 ∧
    (part004LoadConfig s env).2.blobContent = s.blobContent ∧
    (part004LoadConfig s env).2.inMemoryConfig = s.inMemoryConfig ∧
    (part004LoadConfig s env).2.getThrows = s.getThrows ∧
    (part004LoadConfig s env).2.setThrows = s.setThrows ∧
    (part004LoadConfig (part004LoadConfig s env).2 env).2 = (part004LoadConfig s env).2 := by
  obtain ⟨ba, gt, st, bc, im⟩ := s
  cases ba with
  | false => cases im <;> simp [part004LoadConfig, part004MemoryStage]
  | true =>
    cases gt with
    | true => cases im <;> simp [part004LoadConfig, part004MemoryStage]
    | false =>
      cases bc with
      | none => cases im <;> simp [part004LoadConfig, part004MemoryStage]
      | some t =>
        cases hp : jsonParse t.data with
        | none => cases im <;> simp [part004LoadConfig, part004MemoryStage, hp]
        | some j => simp [part004LoadConfig, part004MemoryStage, hp]

/-- State for the C6 counterexample: blobs available but the stored blob
is unparsable, writes would succeed, no in-memory fallback yet. -/
def c6State : Part004State := ⟨true, false, false, some "not json", none⟩

/-- Config pair used by the C6 counterexample. -/
def c6Pair : ConfigPair := ⟨"p1", "b1"⟩

/-- C6 counterexample: `resolve()` is not side-effect-free as claimed.  On
`c6State`, an update issued directly persists to the durable store
(`netlify-blobs`), but the same update issued after one `resolve()` call
is diverted to memory and the durable blob keeps its stale content: the
resolve call changed state observable by a later update. -/
theorem c6_counterexample :
    (part004SaveConfig c6State c6Pair).1.storage = "netlify-blobs" ∧
    (part004SaveConfig c6State c6Pair).2.blobContent = some (stringifyConfigPair c6Pair) ∧
    (part004SaveConfig (part004LoadConfig c6State envNone).2 c6Pair).1.storage = "in-memory" ∧
    (part004SaveConfig (part004LoadConfig c6State envNone).2 c6Pair).2.blobContent =
      some "not json" ∧
    "netlify-blobs" ≠ "in-memory" :=
  ⟨rfl, rfl, rfl, rfl, by decide⟩

/-- C7: a non-2xx answer from the token-exchange endpoint fails the
invocation with the `ExchangeFailed` error carrying the upstream status
code and status text, and the request trace holds exactly the single
exchange request — no retry and no downstream call. -/
theorem c7_exchange_failure_single_attempt (env : ProcessEnv) (w : World) (u : String)
    (ai : AuthInfo) (sub : Json)
    (hscope : ai.scopes.contains "app:read" = true)
    (hcid : ∃ parts, decodeClientId ai.clientId = .ok parts)
    (hjwt : getSubFromJwt ai.token = .ok sub)
    (hresp : responseOk w.exchangeResponse = false) :
    readRepos env w u (some ai) =
      (.error (exchangeFailedError w.exchangeResponse),
       [exchangeRequest env ai.token sub]) := by
  obtain ⟨parts, hp⟩ := hcid
  have hmem : "app:read" ∈ ai.scopes := by simpa using hscope
  simp [readRepos, hmem, hp, hjwt, hresp]

/-- World for the C7 witness: the exchange endpoint answers 500. -/
def wExchangeFail : World :=
  ⟨⟨500, "Server Error", .null⟩, ⟨200, "OK", .arr []⟩⟩

/-- Witness for C7 at a concrete 500 exchange response. -/
theorem c7_witness :
    readRepos envNone wExchangeFail "bob" (some aiValid) =
      (.error (exchangeFailedError wExchangeFail.exchangeResponse),
       [exchangeRequest envNone aiValid.token (.str "user-123")]) :=
  c7_exchange_failure_single_attempt envNone wExchangeFail "bob" aiValid (.str "user-123")
    rfl ⟨⟨"proj1", "app1"⟩, rfl⟩ rfl rfl

/-- C8 (amended): the read-repos handler never inspects the downstream
response status (its `ok` check is commented out in the source): it fails
with the `UnexpectedFormat` error exactly when the downstream body is not
a JSON array — a non-2xx error object included — and any array body
produces a success result regardless of the downstream status. -/
theorem c8_amended_no_downstream_status_check (env : ProcessEnv) (w : World) (u : String)
    (ai : AuthInfo) (sub : Json)
    (hscope : ai.scopes.contains "app:read" = true)
    (hcid : ∃ parts, decodeClientId ai.clientId = .ok parts)
    (hjwt : getSubFromJwt ai.token = .ok sub)
    (hok : responseOk w.exchangeResponse = true) :
    (w.githubResponse.jsonBody.isArr = false →
      (readRepos env w u (some ai)).1 = .error unexpectedFormatError) ∧
    (w.githubResponse.jsonBody.isArr = true →
      (readRepos env w u (some ai)).1.isOk = true) := by
  obtain ⟨parts, hp⟩ := hcid
  have hmem : "app:read" ∈ ai.scopes := by simpa using hscope
  constructor
  · intro harr
    cases hbody : w.githubResponse.jsonBody with
    | arr xs => rw [hbody] at harr; simp [Json.isArr] at harr
    | null => simp [readRepos, hmem, hp, hjwt, hok, hbody]
    | bool b => simp [readRepos, hmem, hp, hjwt, hok, hbody]
    | num m e => simp [readRepos, hmem, hp, hjwt, hok, hbody]
    | str s2 => simp [readRepos, hmem, hp, hjwt, hok, hbody]
    | obj fs => simp [readRepos, hmem, hp, hjwt, hok, hbody]
  · intro harr
    cases hbody : w.githubResponse.jsonBody with
    | arr xs =>
      by_cases hlen : xs.length = 0
      · simp [readRepos, hmem, hp, hjwt, hok, hbody, hlen, Except.isOk, Except.toBool]
      · simp [readRepos, hmem, hp, hjwt, hok, hbody, hlen, Except.isOk, Except.toBool]
    | null => rw [hbody] at harr; simp [Json.isArr] at harr
    | bool b => rw [hbody] at harr; simp [Json.isArr] at harr
    | num m e => rw [hbody] at harr; simp [Json.isArr] at harr
    | str s2 => rw [hbody] at harr; simp [Json.isArr] at harr
    | obj fs => rw [hbody] at harr; simp [Json.isArr] at harr

/-- World for the C8 counterexample: successful exchange, downstream 500
whose body is a JSON error object. -/
def wC8obj : World :=
  ⟨⟨200, "OK", .obj [("accessToken", .str "tok-abc")]⟩,
   ⟨500, "Internal Server Error", .obj [("message", .str "boom")]⟩⟩

/-- World for the C8 counterexample: successful exchange, downstream 500
whose body is a JSON array. -/
def wC8arr : World :=
  ⟨⟨200, "OK", .obj [("accessToken", .str "tok-abc")]⟩,
   ⟨500, "Internal Server Error", .arr []⟩⟩

/-- C8 counterexample: the claim that a non-2xx downstream response fails
with `DownstreamFailed` is false for read-repos.  A downstream 500 whose
body is a JSON array is treated as a success, and a downstream 500 whose
body is an object fails with the `UnexpectedFormat` error (not a
status-carrying `DownstreamFailed`). -/
theorem c8_counterexample :
    responseOk wC8arr.githubResponse = false ∧
    (readRepos envNone wC8arr "bob" (some aiValid)).1 = .ok ⟨noReposMsg "bob"⟩ ∧
    responseOk wC8obj.githubResponse = false ∧
    (readRepos envNone wC8obj "bob" (some aiValid)).1 = .error unexpectedFormatError :=
  ⟨rfl, rfl, rfl, rfl⟩

/-- Witness for C8 applying the amended theorem at the concrete world
whose downstream answer is a 500 with an object body. -/
theorem c8_witness :
    (wC8obj.githubResponse.jsonBody.isArr = false →
      (readRepos envNone wC8obj "bob" (some aiValid)).1 = .error unexpectedFormatError) ∧
    (wC8obj.githubResponse.jsonBody.isArr = true →
      (readRepos envNone wC8obj "bob" (some aiValid)).1.isOk = true) :=
  c8_amended_no_downstream_status_check envNone wC8obj "bob" aiValid (.str "user-123")
    rfl ⟨⟨"proj1", "app1"⟩, rfl⟩ rfl rfl

/-- C9 (amended): a provided configuration field that is truthy and not a
string is rejected with 400 (`baseUrl` checked first) and the store is
left untouched; falsy non-string values (`0`, `false`, `null`) bypass the
validation (see the counterexample). -/
theorem c9_amended_validation (s : BlobStoreState) (body : String) (config : Json)
    (hparse : jsonParse body.data = some config) :
    (jsTruthyOpt (config.getField "baseUrl") = true →
      (config.getField "baseUrl").any Json.isStr = false →
      handlePut s body = (⟨400, .obj [("error", .str "baseUrl must be a string")]⟩, s)) ∧
    (jsTruthyOpt (config.getField "projectId") = true →
      (config.getField "projectId").any Json.isStr = false →
      (jsTruthyOpt (config.getField "baseUrl") = false ∨
        (config.getField "baseUrl").any Json.isStr = true) →
      handlePut s body = (⟨400, .obj [("error", .str "projectId must be a string")]⟩, s)) := by
  constructor
  · intro h1 h2
    unfold handlePut
    rw [hparse]
    simp [h1, h2]
  · intro h1 h2 h3
    unfold handlePut
    rw [hparse]
    rcases h3 with h3 | h3 <;> simp [h1, h2, h3]

/-- Witness for C9 at the bodies with `baseUrl` 5 and `projectId` 5. -/
theorem c9_witness :
    handlePut ⟨false, none⟩ "\x7b\"baseUrl\":5\x7d" =
      (⟨400, .obj [("error", .str "baseUrl must be a string")]⟩, ⟨false, none⟩) ∧
    handlePut ⟨false, none⟩ "\x7b\"projectId\":5\x7d" =
      (⟨400, .obj [("error", .str "projectId must be a string")]⟩, ⟨false, none⟩) :=
  ⟨(c9_amended_validation ⟨false, none⟩ "\x7b\"baseUrl\":5\x7d"
      (.obj [("baseUrl", .num 5 0)]) rfl).1 rfl rfl,
   (c9_amended_validation ⟨false, none⟩ "\x7b\"projectId\":5\x7d"
      (.obj [("projectId", .num 5 0)]) rfl).2 rfl rfl (Or.inl rfl)⟩

/-- C9 counterexample: the claim that every present non-string field is
rejected is false.  The body assigning the number 0 to `baseUrl` carries a
present, non-string field, yet the update is answered 200 and the value 0
is persisted, because the JS truthiness guard `config.baseUrl &&` skips
falsy values. -/
theorem c9_counterexample :
    jsonParse "\x7b\"baseUrl\":0\x7d".data = some (.obj [("baseUrl", .num 0 0)]) ∧
    Json.isStr (.num 0 0) = false ∧
    (handlePut ⟨false, none⟩ "\x7b\"baseUrl\":0\x7d").1.statusCode = 200 ∧
    (handlePut ⟨false, none⟩ "\x7b\"baseUrl\":0\x7d").2.content =
      some (.obj [("baseUrl", .num 0 0)]) :=
  ⟨rfl, rfl, rfl, rfl⟩

/-- C10: the token-exchange request is independent of the caller
clientId content.  Two callers differing only in clientId (both decoding
to a non-empty pair) receive identical handler runs — results and network
traces alike; whenever an exchange request is issued it is the first
request of the trace and is `exchangeRequest`, whose body carries the
fixed appId "github" and whose authorization header is built from the
project id of the process environment, never from the decoded clientId
components. -/
theorem c10_exchange_independent_of_clientId :
    (∀ (env : ProcessEnv) (w : World) (u : String) (a1 a2 : AuthInfo),
      a1.token = a2.token → a1.scopes = a2.scopes →
      (∃ p1, decodeClientId a1.clientId = .ok p1) →
      (∃ p2, decodeClientId a2.clientId = .ok p2) →
      readRepos env w u (some a1) = readRepos env w u (some a2)) ∧
    (∀ (env : ProcessEnv) (w : World) (u : String) (ai : AuthInfo) (sub : Json),
      ai.scopes.contains "app:read" = true →
      (∃ p, decodeClientId ai.clientId = .ok p) →
      getSubFromJwt ai.token = .ok sub →
      (readRepos env w u (some ai)).2.head? = some (exchangeRequest env ai.token sub)) ∧
    (∀ (env : ProcessEnv) (tok : String) (sub : Json),
      (exchangeRequest env tok sub).jsonBody =
        some (.obj [("appId", .str "github"), ("userId", sub)]) ∧
      (exchangeRequest env tok sub).authorization =
        "Bearer " ++ jsDisplayOpt env.descopeProjectId ++ ":" ++ tok) := by
  refine ⟨?_, ?_, ?_⟩
  · rintro env w u a1 a2 ht hs ⟨p1, hp1⟩ ⟨p2, hp2⟩
    simp only [readRepos]
    rw [ht, hs, hp1, hp2]
  · rintro env w u ai sub hscope ⟨p, hp⟩ hjwt
    have hmem : "app:read" ∈ ai.scopes := by simpa using hscope
    by_cases hr : responseOk w.exchangeResponse = false
    · simp [readRepos, hmem, hp, hjwt, hr]
    · cases hbody : w.githubResponse.jsonBody with
      | arr xs =>
        by_cases hlen : xs.length = 0
        · simp [readRepos, hmem, hp, hjwt, hr, hbody, hlen]
        · simp [readRepos, hmem, hp, hjwt, hr, hbody, hlen]
      | null => simp [readRepos, hmem, hp, hjwt, hr, hbody]
      | bool b => simp [readRepos, hmem, hp, hjwt, hr, hbody]
      | num m e => simp [readRepos, hmem, hp, hjwt, hr, hbody]
      | str s2 => simp [readRepos, hmem, hp, hjwt, hr, hbody]
      | obj fs => simp [readRepos, hmem, hp, hjwt, hr, hbody]
  · intro env tok sub
    exact ⟨rfl, rfl⟩

/-- A caller identical to `aiValid` except for its clientId, which is
base64 of the text proj2:app2. -/
def aiOtherClient : AuthInfo :=
  ⟨"h.eyJzdWIiOiJ1c2VyLTEyMyJ9.s", ["app:read"], "cHJvajI6YXBwMg=="⟩

/-- Witness for C10: two concrete callers differing only in clientId run
identically, and the concrete trace head is the canonical exchange
request. -/
theorem c10_witness :
    readRepos envNone wHappy "bob" (some aiValid) =
      readRepos envNone wHappy "bob" (some aiOtherClient) ∧
    (readRepos envNone wHappy "bob" (some aiValid)).2.head? =
      some (exchangeRequest envNone aiValid.token (.str "user-123")) :=
  ⟨c10_exchange_independent_of_clientId.1 envNone wHappy "bob" aiValid aiOtherClient
      rfl rfl ⟨⟨"proj1", "app1"⟩, rfl⟩ ⟨⟨"proj2", "app2"⟩, rfl⟩,
   c10_exchange_independent_of_clientId.2.1 envNone wHappy "bob" aiValid (.str "user-123")
      rfl ⟨⟨"proj1", "app1"⟩, rfl⟩ rfl⟩

/-- C2 (amended): `getSubFromJwt` succeeds exactly when the token splits
into exactly three dot-separated segments, the padded middle segment
base64-decodes and parses to a value whose `sub` property is present AND
truthy, and then returns that value; in every other case — wrong segment
count, unparsable payload, missing `sub`, or a falsy `sub` such as the
empty string — it fails, always with the single `InvalidToken` error. -/
theorem getSubFromJwt_error_unique (jwt : String) (e : McpError)
    (h : getSubFromJwt jwt = .error e) : e = invalidJwtError := by
  unfold getSubFromJwt at h
  split at h
  · split at h
    · exact (Except.error.inj h).symm
    · split at h
      · split at h
        · simp at h
        · exact (Except.error.inj h).symm
      · exact (Except.error.inj h).symm
  · exact (Except.error.inj h).symm

theorem c2_amended_claim_extraction (jwt : String) :
    (∀ v : Json, getSubFromJwt jwt = .ok v ↔
      (∃ pre payload post, splitChar '.' jwt.data = [pre, payload, post] ∧
        ∃ p, jsonParse (utf8Decode (nodeBase64Decode (padBase64 payload))) = some p ∧
          p.getField "sub" = some v ∧ jsTruthy v = true)) ∧
    (getSubFromJwt jwt = .error invalidJwtError ∨ ∃ v, getSubFromJwt jwt = .ok v) := by
  constructor
  · intro v
    constructor
    · intro hv
      unfold getSubFromJwt at hv
      cases h1 : splitChar '.' jwt.data with
      | nil => rw [h1] at hv; simp at hv
      | cons pre l1 =>
        cases l1 with
        | nil => rw [h1] at hv; simp at hv
        | cons payload l2 =>
          cases l2 with
          | nil => rw [h1] at hv; simp at hv
          | cons post l3 =>
            cases l3 with
            | cons x rest => rw [h1] at hv; simp at hv
            | nil =>
              rw [h1] at hv
              cases h2 : jsonParse (utf8Decode (nodeBase64Decode (padBase64 payload))) with
              | none => simp [h2] at hv
              | some p =>
                cases h3 : p.getField "sub" with
                | none => simp [h2, h3] at hv
                | some v0 =>
                  by_cases h4 : jsTruthy v0 = true
                  · simp [h2, h3, h4] at hv
                    subst hv
                    exact ⟨pre, payload, post, rfl, p, h2, h3, h4⟩
                  · simp [h2, h3, h4] at hv
    · rintro ⟨pre, payload, post, hsp, p, hpar, hf, ht⟩
      unfold getSubFromJwt
      rw [hsp]
      simp [hpar, hf, ht]
  · cases hg : getSubFromJwt jwt with
    | ok v => exact Or.inr ⟨v, rfl⟩
    | error e =>
      exact Or.inl (congrArg Except.error (getSubFromJwt_error_unique jwt e hg))

/-- C2 counterexample: the token whose middle segment is base64 of the
JSON text assigning the empty string to `sub` has exactly three segments
and its payload parses to an object that DOES carry a `sub` claim, yet
`getSubFromJwt` fails with the InvalidToken error instead of returning
the empty-string value: the source tests JS truthiness of `sub`, not
presence. -/
theorem c2_counterexample :
    splitChar '.' ("x.eyJzdWIiOiIifQ.y").data =
      ["x".data, "eyJzdWIiOiIifQ".data, "y".data] ∧
    jsonParse (utf8Decode (nodeBase64Decode (padBase64 ("eyJzdWIiOiIifQ").data))) =
      some (.obj [("sub", .str "")]) ∧
    (Json.obj [("sub", .str "")]).getField "sub" = some (.str "") ∧
    getSubFromJwt "x.eyJzdWIiOiIifQ.y" = .error invalidJwtError :=
  ⟨rfl, rfl, rfl, rfl⟩

/-- Witness for C2 applying the characterization at a concrete valid
token and at a concrete malformed token. -/
theorem c2_witness :
    getSubFromJwt "h.eyJzdWIiOiJ1c2VyLTEyMyJ9.s" = .ok (.str "user-123") ∧
    (getSubFromJwt "no-dots-here" = .error invalidJwtError ∨
      ∃ v, getSubFromJwt "no-dots-here" = .ok v) :=
  ⟨((c2_amended_claim_extraction "h.eyJzdWIiOiJ1c2VyLTEyMyJ9.s").1 (.str "user-123")).mpr
      ⟨"h".data, "eyJzdWIiOiJ1c2VyLTEyMyJ9".data, "s".data, rfl,
       .obj [("sub", .str "user-123")], rfl, rfl, rfl⟩,
   (c2_amended_claim_extraction "no-dots-here").2⟩

end Mcp
